import Mathlib

set_option maxRecDepth 4000

/-!
Shallow embedding of the rawdb schema engine: the field type catalog, the
field variants with their size algebra (atomic/atomic_struct.py), the
structure builder, the restriction engine (generic/restriction.py) and the
setattr contract of the value container (generic/editable.py). Machine
integers are modelled as Nat or Int; fallible constructors return Except;
attributes that only affect the textual describe rendering are omitted and
noted at each definition.
-/

/-- Catalog entry of scalar primitive types (the FieldTypes enum,
atomic_struct.py lines 18-69): the type name and its size in bytes. The
numeric bounds and the native Python type are never read by the size
algebra and are omitted. -/
structure FieldTypes where
  type_name : String
  size : Nat
  deriving Repr, DecidableEq

def FieldTypes.char : FieldTypes := ⟨ "char", 1⟩

def FieldTypes.bool : FieldTypes := ⟨ "bool", 1⟩

def FieldTypes.uint8_t : FieldTypes := ⟨ "uint8_t", 1⟩

def FieldTypes.uint16_t : FieldTypes := ⟨ "uint16_t", 2⟩

def FieldTypes.uint32_t : FieldTypes := ⟨ "uint32_t", 4⟩

def FieldTypes.uint64_t : FieldTypes := ⟨ "uint64_t", 8⟩

def FieldTypes.int8_t : FieldTypes := ⟨ "int8_t", 1⟩

def FieldTypes.int16_t : FieldTypes := ⟨ "int16_t", 2⟩

def FieldTypes.int32_t : FieldTypes := ⟨ "int32_t", 4⟩

def FieldTypes.int64_t : FieldTypes := ⟨ "int64_t", 8⟩

def FieldTypes.double : FieldTypes := ⟨ "double", 8⟩

def FieldTypes.float : FieldTypes := ⟨ "float", 4⟩

/-- A type annotation of a field is either a catalog FieldTypes member or a
custom type name given as a plain string (the FieldTypes | str unions in
the Python signatures). -/
inductive FieldRef where
  | catalog (t : FieldTypes)
  | custom (type_name : String)
  deriving Repr, DecidableEq

/-- Attributes of a constructed AtomicField instance that the size algebra
reads: the field name, the type annotation, the size attribute in bytes and
the optional bit_size attribute. bit_size = none models the attribute being
absent, so that get_bit_size mirrors the hasattr test of the Python code.
Attributes used only by describe (width, default, lengths, the wrapped copy
inside a pointer, the fields tuple and extern flag of a struct) are
omitted; a struct instance carries a placeholder type_name since the Python
object has no such attribute and nothing reads it. -/
structure AtomicField where
  name : String
  type_name : FieldRef
  size : Nat
  bit_size : Option Nat
  deriving Repr, DecidableEq

/-- AtomicField.get_byte_size (atomic_struct.py lines 79-86). -/
def AtomicField.get_byte_size (f : AtomicField) : Nat := f.size

/-- AtomicField.get_bit_size (atomic_struct.py lines 89-100): returns the
bit_size attribute when present, 0 otherwise. -/
def AtomicField.get_bit_size (f : AtomicField) : Nat :=
  match f.bit_size with
  | some b => b
  | none => 0

/-- AtomicDataField constructor (atomic_struct.py lines 128-156): a width of
0 gives a whole value field whose size is the catalog size (0 for a custom
type name) and no bit_size attribute; a nonzero width gives size 0 and the
bit_size attribute set to the width. The default value only affects
describe and is omitted. -/
def AtomicDataField.mk (name : String) (_type : FieldRef) (width : Nat) : AtomicField :=
  if width = 0 then
    { name := name
      type_name := _type
      size := match _type with
              | FieldRef.catalog t => t.size
              | FieldRef.custom _ => 0
      bit_size := none }
  else
    { name := name, type_name := _type, size := 0, bit_size := some width }

/-- The AtomicError raised by the array constructor when the number of
lengths does not match the dimension (atomic_struct.py lines 204-205); the
Python message interpolates both counts, kept here as data. -/
inductive AtomicError where
  | dimensionMismatch (numLengths : Nat) (dimension : Nat)
  deriving Repr, DecidableEq

/-- AtomicArrayField constructor (atomic_struct.py lines 182-217): raises
when the dimension is nonzero and the number of lengths differs from it;
for a catalog type, dimension 0 gives size 8 (just a pointer) and a nonzero
dimension multiplies the element size by each of the first dimension
lengths; a custom type name gives size 0. No bit_size attribute is set. -/
def AtomicArrayField.mk (name : String) (_type : FieldRef) (dimension : Nat)
    (lengths : List Nat) : Except AtomicError AtomicField :=
  if dimension ≠ 0 ∧ lengths.length ≠ dimension then
    Except.error (AtomicError.dimensionMismatch lengths.length dimension)
  else
    Except.ok
      { name := name
        type_name := _type
        size := match _type with
                | FieldRef.catalog t =>
                    if dimension = 0 then 8
                    else (lengths.take dimension).foldl (fun s l => s * l) t.size
                | FieldRef.custom _ => 0
        bit_size := none }

/-- AtomicArrayField.of_pointer (atomic_struct.py lines 221-241): builds the
array over the name and type of the base pointer, then overrides its size
with 8 multiplied by each of the first dimension lengths (8 alone when the
dimension is 0). -/
def AtomicArrayField.of_pointer (pointer : AtomicField) (dimension : Nat)
    (lengths : List Nat) : Except AtomicError AtomicField :=
  match AtomicArrayField.mk pointer.name pointer.type_name dimension lengths with
  | Except.error e => Except.error e
  | Except.ok array =>
      Except.ok { array with
        size := if dimension ≠ 0 then (lengths.take dimension).foldl (fun s l => s * l) 8
                else 8 }

/-- AtomicFieldPointer constructor (atomic_struct.py lines 287-314): copies
the wrapped field, rewrites the display name, and sets size 8, the size of
a pointer. isArray tells whether the wrapped field is an AtomicArrayField,
which only changes the rewritten name. No bit_size attribute is set. -/
def AtomicFieldPointer.mk (atomic_data_field : AtomicField) (isArray : Bool) : AtomicField :=
  { name := if isArray then "*(" ++ atomic_data_field.name ++ ")"
            else "*" ++ atomic_data_field.name
    type_name := atomic_data_field.type_name
    size := 8
    bit_size := none }

/-- AtomicFieldPointer.of_type (atomic_struct.py lines 264-276). -/
def AtomicFieldPointer.of_type (name : String) (_type : FieldRef) : AtomicField :=
  AtomicFieldPointer.mk (AtomicDataField.mk name _type 0) false

/-- AtomicStructField constructor (atomic_struct.py lines 332-358): one loop
accumulates the bit sizes and byte sizes of the fields, then the rounded up
byte count of the whole accumulated bit size is added to the byte size. The
struct stores the accumulated bit size in its bit_size attribute. Nat
ceiling division (bits + 7) / 8 computes ceil(bits / 8). -/
def AtomicStructField.mk (name : String) (fields : List AtomicField) : AtomicField :=
  let acc := fields.foldl
    (fun (a : Nat × Nat) field => (a.1 + field.get_bit_size, a.2 + field.get_byte_size))
    (0, 0)
  { name := name
    type_name := FieldRef.custom ""
    size := acc.2 + (acc.1 + 7) / 8
    bit_size := some acc.1 }

/-- A Python dict assignment fields[name] = value: replaces the entry in
place when the key is present, appends otherwise, preserving insertion
order. -/
def dictInsert {α : Type} (fields : List (String × α)) (name : String) (value : α) :
    List (String × α) :=
  if fields.any (fun p => p.1 == name) then
    fields.map (fun p => if p.1 == name then (name, value) else p)
  else
    fields ++ [(name, value)]

/-- AtomicStructBuilder state: the insertion ordered, name keyed fields
dict (atomic_struct.py lines 399-429). -/
structure AtomicStructBuilder where
  fields : List (String × AtomicField)
  deriving Repr, DecidableEq

def AtomicStructBuilder.empty : AtomicStructBuilder := ⟨[]⟩

/-- What a builder method call produces: first the builder state after the
call, second the value the Python method returns, some b when the method
ends with return self and none when it falls through returning None. -/
abbrev BuilderResult := AtomicStructBuilder × Option AtomicStructBuilder

/-- AtomicStructBuilder.remove_field (atomic_struct.py lines 432-441):
deletes the entry when present, and returns None. -/
def AtomicStructBuilder.remove_field (b : AtomicStructBuilder) (name : String) :
    BuilderResult :=
  (⟨b.fields.filter (fun p => p.1 != name)⟩, none)

/-- AtomicStructBuilder.add_field (atomic_struct.py lines 443-467). -/
def AtomicStructBuilder.add_field (b : AtomicStructBuilder) (name : String)
    (_type : FieldTypes) (width : Nat) : BuilderResult :=
  let b2 : AtomicStructBuilder :=
    ⟨dictInsert b.fields name (AtomicDataField.mk name (FieldRef.catalog _type) width)⟩
  (b2, some b2)

/-- AtomicStructBuilder.add_array (atomic_struct.py lines 470-494). -/
def AtomicStructBuilder.add_array (b : AtomicStructBuilder) (name : String)
    (_type : FieldTypes) (dimension : Nat) (lengths : List Nat) :
    Except AtomicError BuilderResult :=
  match AtomicArrayField.mk name (FieldRef.catalog _type) dimension lengths with
  | Except.error e => Except.error e
  | Except.ok field =>
      let b2 : AtomicStructBuilder := ⟨dictInsert b.fields name field⟩
      Except.ok (b2, some b2)

/-- AtomicStructBuilder.add_array_custom (atomic_struct.py lines 497-521). -/
def AtomicStructBuilder.add_array_custom (b : AtomicStructBuilder) (name : String)
    (type_name : String) (dimension : Nat) (lengths : List Nat) :
    Except AtomicError BuilderResult :=
  match AtomicArrayField.mk name (FieldRef.custom type_name) dimension lengths with
  | Except.error e => Except.error e
  | Except.ok field =>
      let b2 : AtomicStructBuilder := ⟨dictInsert b.fields name field⟩
      Except.ok (b2, some b2)

/-- AtomicStructBuilder.add_pointer_field (atomic_struct.py lines 524-544). -/
def AtomicStructBuilder.add_pointer_field (b : AtomicStructBuilder) (name : String)
    (_type : FieldTypes) : BuilderResult :=
  let b2 : AtomicStructBuilder :=
    ⟨dictInsert b.fields name
      (AtomicFieldPointer.mk (AtomicDataField.mk name (FieldRef.catalog _type) 0) false)⟩
  (b2, some b2)

/-- AtomicStructBuilder.add_pointer_custom (atomic_struct.py lines 547-567). -/
def AtomicStructBuilder.add_pointer_custom (b : AtomicStructBuilder) (name : String)
    (type_name : String) : BuilderResult :=
  let b2 : AtomicStructBuilder :=
    ⟨dictInsert b.fields name
      (AtomicFieldPointer.mk (AtomicDataField.mk name (FieldRef.custom type_name) 0) false)⟩
  (b2, some b2)

/-- AtomicStructBuilder.add_pointer_of_array (atomic_struct.py lines
570-594): wraps a freshly constructed array field in a pointer. -/
def AtomicStructBuilder.add_pointer_of_array (b : AtomicStructBuilder) (name : String)
    (_type : FieldTypes) (dimension : Nat) (lengths : List Nat) :
    Except AtomicError BuilderResult :=
  match AtomicArrayField.mk name (FieldRef.catalog _type) dimension lengths with
  | Except.error e => Except.error e
  | Except.ok array =>
      let b2 : AtomicStructBuilder :=
        ⟨dictInsert b.fields name (AtomicFieldPointer.mk array true)⟩
      Except.ok (b2, some b2)

/-- AtomicStructBuilder.add_array_of_pointers (atomic_struct.py lines
597-619): keyed under the pointer name, which already carries the star. -/
def AtomicStructBuilder.add_array_of_pointers (b : AtomicStructBuilder)
    (pointer : AtomicField) (dimension : Nat) (lengths : List Nat) :
    Except AtomicError BuilderResult :=
  match AtomicArrayField.of_pointer pointer dimension lengths with
  | Except.error e => Except.error e
  | Except.ok field =>
      let b2 : AtomicStructBuilder := ⟨dictInsert b.fields pointer.name field⟩
      Except.ok (b2, some b2)

/-- AtomicStructBuilder.add_struct (atomic_struct.py lines 622-673): copies
the struct, clears its display name when show_struct_name is false, and
keys the dict by the original struct name. The copied declared_struct_name
only affects describe and is omitted. -/
def AtomicStructBuilder.add_struct (b : AtomicStructBuilder) (struct : AtomicField)
    (show_struct_name : Bool) : BuilderResult :=
  let copied := if show_struct_name then struct else { struct with name := "" }
  let b2 : AtomicStructBuilder := ⟨dictInsert b.fields struct.name copied⟩
  (b2, some b2)

/-- AtomicStructBuilder.add_struct_field (atomic_struct.py lines 676-700):
a data field of custom type struct tag whose size is then overwritten with
the byte size of the given struct. -/
def AtomicStructBuilder.add_struct_field (b : AtomicStructBuilder) (name : String)
    (struct : AtomicField) : BuilderResult :=
  let field := AtomicDataField.mk name (FieldRef.custom ("struct " ++ struct.name)) 0
  let field := { field with size := struct.get_byte_size }
  let b2 : AtomicStructBuilder := ⟨dictInsert b.fields name field⟩
  (b2, some b2)

/-- AtomicStructBuilder.add_struct_array (atomic_struct.py lines 703-734):
an array of custom type struct tag whose size is then overwritten with the
struct size multiplied by each of the first dimension lengths, or 8 when
the dimension is 0. -/
def AtomicStructBuilder.add_struct_array (b : AtomicStructBuilder) (name : String)
    (struct : AtomicField) (dimension : Nat) (lengths : List Nat) :
    Except AtomicError BuilderResult :=
  match AtomicArrayField.mk name (FieldRef.custom ("struct " ++ struct.name)) dimension lengths with
  | Except.error e => Except.error e
  | Except.ok array =>
      let array := { array with
        size := if dimension = 0 then 8
                else (lengths.take dimension).foldl (fun s l => s * l) struct.size }
      let b2 : AtomicStructBuilder := ⟨dictInsert b.fields name array⟩
      Except.ok (b2, some b2)

/-- AtomicStructBuilder.add_pointer_struct_field (atomic_struct.py lines
737-759). -/
def AtomicStructBuilder.add_pointer_struct_field (b : AtomicStructBuilder) (name : String)
    (struct : AtomicField) : BuilderResult :=
  let b2 : AtomicStructBuilder :=
    ⟨dictInsert b.fields name
      (AtomicFieldPointer.mk
        (AtomicDataField.mk name (FieldRef.custom ("struct " ++ struct.name)) 0) false)⟩
  (b2, some b2)

/-- AtomicStructBuilder.add_custom (atomic_struct.py lines 762-781). -/
def AtomicStructBuilder.add_custom (b : AtomicStructBuilder) (name : String)
    (custom_type_name : String) : BuilderResult :=
  let b2 : AtomicStructBuilder :=
    ⟨dictInsert b.fields name (AtomicDataField.mk name (FieldRef.custom custom_type_name) 0)⟩
  (b2, some b2)

/-- AtomicStructBuilder.build (atomic_struct.py lines 784-792): constructs a
struct field over the current dict values in insertion order. The declared
struct name only affects describe and is omitted. -/
def AtomicStructBuilder.build (b : AtomicStructBuilder) (name : String) : AtomicField :=
  AtomicStructField.mk name (b.fields.map (fun p => p.2))

/-- RestrictionError (generic/restriction.py lines 4-10): its message
interpolates the restriction set name, the offending value and the name of
the failing predicate, kept here as data. -/
structure RestrictionError (V : Type) where
  restriction_name : String
  value : V
  name : String
  deriving Repr, DecidableEq

/-- Restriction (generic/restriction.py lines 13-34): a named, ordered list
of named validator predicates over values of type V. -/
structure Restriction (V : Type) where
  restriction_name : String
  validators : List (String × (V → Bool))

/-- Restriction.restrict (generic/restriction.py lines 37-67): appends one
named validator, so registration order is list order. -/
def Restriction.restrict {V : Type} (r : Restriction V) (name : String)
    (validator : V → Bool) : Restriction V :=
  { r with validators := r.validators ++ [(name, validator)] }

/-- The loop of Restriction.validate (generic/restriction.py lines 70-82):
runs the validators in order and raises a RestrictionError naming the first
validator that rejects the value; none models returning without error. -/
def validateFrom {V : Type} (restriction_name : String)
    (validators : List (String × (V → Bool))) (value : V) :
    Option (RestrictionError V) :=
  match validators with
  | [] => none
  | (name, validator) :: rest =>
      if validator value then validateFrom restriction_name rest value
      else some ⟨restriction_name, value, name⟩

/-- Restriction.validate (generic/restriction.py lines 70-82). -/
def Restriction.validate {V : Type} (r : Restriction V) (value : V) :
    Option (RestrictionError V) :=
  validateFrom r.restriction_name r.validators value

/-- A restriction set of the editable layer (generic/editable.py class
Restriction): what __setattr__ observes of it is only whether each
registered validator accepts the new value, so a validator is modelled as a
predicate on the value, false meaning the Python call raises ValueError. -/
structure ERestriction (V : Type) where
  name : String
  validators : List (V → Bool)

/-- The editable Restriction.validate loop (generic/editable.py lines
231-251): every validator is called in order and the first exception
propagates; true means no validator raised. -/
def ERestriction.validateOk {V : Type} (r : ERestriction V) (value : V) : Bool :=
  r.validators.all (fun validator => validator value)

/-- State of an Editable value container: keys maps restricted attribute
names to their restriction sets (the keys property, generic/editable.py
lines 456-470) and values maps attribute names to their currently stored
values. -/
structure Editable (V : Type) where
  keys : List (String × ERestriction V)
  values : List (String × V)

/-- Lookup in a name keyed association list (a Python dict access that may
raise KeyError, modelled as Option). -/
def lookupName {α : Type} (l : List (String × α)) (name : String) : Option α :=
  match l.find? (fun p => p.1 == name) with
  | some p => some p.2
  | none => none

/-- The ValueError that Editable.__setattr__ lets propagate after firing the
invalid event; it concerns this attribute name and offending value. -/
structure SetError (V : Type) where
  name : String
  value : V
  deriving Repr, DecidableEq

/-- Editable.__setattr__ (generic/editable.py lines 622-648): a name without
a restriction in keys is stored directly; for a restricted name the
restriction is validated first, and a validation failure raises before any
store, leaving the stored values unchanged; on success the new value is
stored only when the attribute already exists (the getattr AttributeError
branch passes without storing). The CollectionNotifier wrapping of list
values and the event firing do not change the stored values and are
omitted. The result is the state after the call paired with the raised
error, if any. -/
def Editable.setattr {V : Type} (e : Editable V) (name : String) (value : V) :
    Editable V × Option (SetError V) :=
  match lookupName e.keys name with
  | none => ({ e with values := dictInsert e.values name value }, none)
  | some restriction =>
      if restriction.validateOk value then
        match lookupName e.values name with
        | none => (e, none)
        | some _ => ({ e with values := dictInsert e.values name value }, none)
      else (e, some ⟨name, value⟩)

/-- editable validate_min (generic/editable.py lines 180-185): raises when
the value is below the minimum. -/
def validate_min (min_value : Int) (value : Int) : Bool :=
  if value < min_value then false else true

/-- editable validate_max (generic/editable.py lines 187-192): raises when
the value is above the maximum. -/
def validate_max (max_value : Int) (value : Int) : Bool :=
  if value > max_value then false else true

/-- editable validate_type with castable true (generic/editable.py lines
215-224): int(value) succeeds on every int, so it never raises here. -/
def validate_type_int (_value : Int) : Bool := true

/-- The restriction set Editable.uint8 attaches to its field
(generic/editable.py lines 516-521): min_value 0, max_value 0xFF and type
int, registered in that order by Restriction.restrict (lines 87-120). -/
def uint8Restriction (name : String) : ERestriction Int :=
  ⟨name, [validate_min 0, validate_max 0xFF, validate_type_int]⟩

/-- A container with one unsigned 8 bit field age holding its default 0. -/
def ageEditable : Editable Int :=
  ⟨[("age", uint8Restriction "age")], [("age", 0)]⟩

/-- The field specifications of the flags example struct of the builder
docstring: four uint8_t bit fields of widths 2, 2, 1 and 3. -/
def flagSpecs : List (String × FieldRef × Nat) :=
  [("enable", (FieldRef.catalog FieldTypes.uint8_t, 2)),
   ("type", (FieldRef.catalog FieldTypes.uint8_t, 2)),
   ("masked", (FieldRef.catalog FieldTypes.uint8_t, 1)),
   ("unused", (FieldRef.catalog FieldTypes.uint8_t, 3))]

theorem foldl_sizes (fields : List AtomicField) (a b : Nat) :
    fields.foldl (fun (a : Nat × Nat) field =>
        (a.1 + field.get_bit_size, a.2 + field.get_byte_size)) (a, b)
      = (a + (fields.map AtomicField.get_bit_size).sum,
         b + (fields.map AtomicField.get_byte_size).sum) := by
  induction fields generalizing a b with
  | nil => simp
  | cons f rest ih => simp [ih, Nat.add_assoc]

theorem foldl_mul_eq (lengths : List Nat) (s : Nat) :
    lengths.foldl (fun s l => s * l) s = s * lengths.prod := by
  induction lengths generalizing s with
  | nil => simp
  | cons l rest ih => simp [ih, Nat.mul_assoc]

/-- Nat ceiling division by 8 agrees with the ceiling of the rational
division, which is what math.ceil computes in the Python code. -/
theorem ceil_div_eight_eq (N : Nat) : ⌈((N : ℚ) / 8)⌉₊ = (N + 7) / 8 := by
  rcases Nat.eq_zero_or_pos N with h | h
  · subst h; norm_num
  · have hn : (N + 7) / 8 ≠ 0 := by omega
    rw [Nat.ceil_eq_iff hn]
    constructor
    · rw [lt_div_iff₀ (by norm_num : (0 : ℚ) < 8)]
      have h1 : ((N + 7) / 8 - 1) * 8 < N := by omega
      exact_mod_cast h1
    · rw [div_le_iff₀ (by norm_num : (0 : ℚ) < 8)]
      have h2 : N ≤ ((N + 7) / 8) * 8 := by omega
      exact_mod_cast h2

/-- The two size attributes stored by the struct constructor, spelled as
sums over the field list. -/
theorem struct_mk_size (name : String) (fields : List AtomicField) :
    (AtomicStructField.mk name fields).get_byte_size
      = (fields.map AtomicField.get_byte_size).sum
        + ((fields.map AtomicField.get_bit_size).sum + 7) / 8
    ∧ (AtomicStructField.mk name fields).get_bit_size
      = (fields.map AtomicField.get_bit_size).sum := by
  constructor
  · simp only [AtomicStructField.mk]
    rw [foldl_sizes]
    simp [AtomicField.get_byte_size]
  · simp only [AtomicStructField.mk]
    rw [foldl_sizes]
    simp [AtomicField.get_bit_size]

/-- C1: the byte size of every built struct equals the sum of the byte
sizes of its fields plus the ceiling of the sum of their bit sizes divided
by 8; in particular a struct whose fields are solely bit field scalars
whose widths sum to N bits has byte size ceil(N / 8), however many scalar
fields compose that N. -/
theorem struct_size_invariant :
    (∀ (name : String) (fields : List AtomicField),
        (AtomicStructField.mk name fields).get_byte_size
          = (fields.map AtomicField.get_byte_size).sum
            + ⌈(((fields.map AtomicField.get_bit_size).sum : ℚ)) / 8⌉₊)
    ∧ (∀ (name : String) (specs : List (String × FieldRef × Nat)),
        (∀ s ∈ specs, s.2.2 ≠ 0) →
        (AtomicStructField.mk name
            (specs.map (fun s => AtomicDataField.mk s.1 s.2.1 s.2.2))).get_byte_size
          = ⌈((((specs.map (fun s => s.2.2)).sum : ℕ) : ℚ)) / 8⌉₊) := by
  constructor
  · intro name fields
    rw [(struct_mk_size name fields).1, ceil_div_eight_eq]
  · intro name specs h
    have hbytes : ((specs.map (fun s => AtomicDataField.mk s.1 s.2.1 s.2.2)).map
        AtomicField.get_byte_size).sum = 0 := by
      rw [List.map_map]
      apply List.sum_eq_zero
      intro x hx
      obtain ⟨s, hs, rfl⟩ := List.mem_map.1 hx
      simp [AtomicDataField.mk, AtomicField.get_byte_size, h s hs]
    have hbits : ((specs.map (fun s => AtomicDataField.mk s.1 s.2.1 s.2.2)).map
        AtomicField.get_bit_size) = specs.map (fun s => s.2.2) := by
      rw [List.map_map]
      apply List.map_congr_left
      intro s hs
      simp [AtomicDataField.mk, AtomicField.get_bit_size, h s hs]
    rw [(struct_mk_size name _).1, hbytes, hbits, ceil_div_eight_eq]
    simp

/-- Witness for C1: the flags struct of four bit fields of widths 2, 2, 1
and 3 has byte size ceil(8 / 8) = 1. -/
theorem struct_size_invariant_witness :
    (AtomicStructField.mk "flags"
        (flagSpecs.map (fun s => AtomicDataField.mk s.1 s.2.1 s.2.2))).get_byte_size = 1 := by
  have h := struct_size_invariant.2 "flags" flagSpecs (by decide)
  rw [h, ceil_div_eight_eq]
  decide

/-- C2: every pointer field has byte size 8, independent of the wrapped
field; concretely, a pointer to a 10 by 20 array of 8 byte elements added
through add_pointer_of_array has byte size 8 even though the array itself
has byte size 1600, and a pointer to a struct added through
add_pointer_struct_field also has byte size 8. -/
theorem pointer_byte_size_eight :
    (∀ (field : AtomicField) (isArray : Bool),
        (AtomicFieldPointer.mk field isArray).get_byte_size = 8)
    ∧ ((AtomicStructBuilder.empty.add_pointer_of_array "p_matrix" FieldTypes.uint64_t 2
          [10, 20]).map (fun r => r.1.fields.map (fun p => p.2.get_byte_size))
        = Except.ok [8])
    ∧ ((AtomicArrayField.mk "p_matrix" (FieldRef.catalog FieldTypes.uint64_t) 2
          [10, 20]).map AtomicField.get_byte_size = Except.ok 1600)
    ∧ (∀ (name : String) (struct : AtomicField),
        ((AtomicStructBuilder.empty.add_pointer_struct_field name struct).1.fields.map
            (fun p => p.2.get_byte_size)) = [8]) := by
  refine ⟨?_, by rfl, by rfl, ?_⟩
  · intro field isArray
    simp [AtomicFieldPointer.mk, AtomicField.get_byte_size]
  · intro name struct
    simp [AtomicStructBuilder.add_pointer_struct_field, AtomicStructBuilder.empty, dictInsert,
      AtomicFieldPointer.mk, AtomicField.get_byte_size]

/-- C3 as stated is false on the struct variant: a struct containing a bit
field is itself a non bit field variant, yet its bit size accessor returns
the nonzero sum of its members bit sizes. -/
theorem bit_size_counterexample :
    (AtomicStructField.mk "s"
        [AtomicDataField.mk "b" (FieldRef.catalog FieldTypes.uint8_t) 3]).get_bit_size ≠ 0 := by
  decide

/-- C3 amended: whole value scalars, arrays and pointers have bit size 0
and a bit field scalar has bit size equal to its declared width, but a
struct field has bit size equal to the sum of the bit sizes of its members,
which is nonzero when it contains bit fields. -/
theorem bit_size_by_variant :
    (∀ (name : String) (_type : FieldRef),
        (AtomicDataField.mk name _type 0).get_bit_size = 0)
    ∧ (∀ (name : String) (_type : FieldRef) (dimension : Nat) (lengths : List Nat)
          (f : AtomicField),
        AtomicArrayField.mk name _type dimension lengths = Except.ok f →
        f.get_bit_size = 0)
    ∧ (∀ (field : AtomicField) (isArray : Bool),
        (AtomicFieldPointer.mk field isArray).get_bit_size = 0)
    ∧ (∀ (name : String) (_type : FieldRef) (width : Nat), width ≠ 0 →
        (AtomicDataField.mk name _type width).get_bit_size = width)
    ∧ (∀ (name : String) (fields : List AtomicField),
        (AtomicStructField.mk name fields).get_bit_size
          = (fields.map AtomicField.get_bit_size).sum) := by
  refine ⟨?_, ?_, ?_, ?_, ?_⟩
  · intro name _type
    simp [AtomicDataField.mk, AtomicField.get_bit_size]
  · intro name _type dimension lengths f h
    unfold AtomicArrayField.mk at h
    split at h
    · exact Except.noConfusion h
    · injection h with h2
      subst h2
      rfl
  · intro field isArray
    simp [AtomicFieldPointer.mk, AtomicField.get_bit_size]
  · intro name _type width hw
    simp [AtomicDataField.mk, AtomicField.get_bit_size, hw]
  · intro name fields
    exact (struct_mk_size name fields).2

/-- Witness for C3 amended: a concrete array field has bit size 0 and a
concrete bit field of width 3 has bit size 3. -/
theorem bit_size_by_variant_witness :
    (∃ f, AtomicArrayField.mk "a" (FieldRef.catalog FieldTypes.uint8_t) 1 [5]
        = Except.ok f ∧ f.get_bit_size = 0)
    ∧ (AtomicDataField.mk "b" (FieldRef.catalog FieldTypes.uint8_t) 3).get_bit_size = 3 := by
  constructor
  · exact ⟨_, rfl, bit_size_by_variant.2.1 "a" (FieldRef.catalog FieldTypes.uint8_t) 1 [5] _ rfl⟩
  · exact bit_size_by_variant.2.2.2.1 "b" (FieldRef.catalog FieldTypes.uint8_t) 3 (by decide)

/-- C5: an array field over a catalog type with nonzero dimension has byte
size the element size times the product of the lengths; with dimension 0
over a catalog type the byte size is the pointer width 8; over a custom
type name the byte size is 0. -/
theorem array_byte_size :
    (∀ (name : String) (t : FieldTypes) (dimension : Nat) (lengths : List Nat),
        dimension ≠ 0 → lengths.length = dimension →
        (AtomicArrayField.mk name (FieldRef.catalog t) dimension lengths).map
            AtomicField.get_byte_size
          = Except.ok (t.size * lengths.prod))
    ∧ (∀ (name : String) (t : FieldTypes) (lengths : List Nat),
        (AtomicArrayField.mk name (FieldRef.catalog t) 0 lengths).map
            AtomicField.get_byte_size
          = Except.ok 8)
    ∧ (∀ (name : String) (type_name : String) (dimension : Nat) (lengths : List Nat),
        dimension = 0 ∨ lengths.length = dimension →
        (AtomicArrayField.mk name (FieldRef.custom type_name) dimension lengths).map
            AtomicField.get_byte_size
          = Except.ok 0) := by
  refine ⟨?_, ?_, ?_⟩
  · intro name t dimension lengths hd hl
    subst hl
    unfold AtomicArrayField.mk
    rw [if_neg (by simp)]
    simp [Except.map, AtomicField.get_byte_size, hd, List.take_length, foldl_mul_eq]
  · intro name t lengths
    unfold AtomicArrayField.mk
    rw [if_neg (by simp)]
    simp [Except.map, AtomicField.get_byte_size]
  · intro name type_name dimension lengths h
    unfold AtomicArrayField.mk
    rw [if_neg (by rcases h with h | h <;> simp [h])]
    simp [Except.map, AtomicField.get_byte_size]

/-- Witness for C5: an 8 byte element type with dimension 2 and lengths
(10, 20) gives 1600, dimension 0 over a catalog type gives 8, and a custom
type gives 0. -/
theorem array_byte_size_witness :
    (AtomicArrayField.mk "matrix" (FieldRef.catalog FieldTypes.uint64_t) 2 [10, 20]).map
        AtomicField.get_byte_size = Except.ok 1600
    ∧ (AtomicArrayField.mk "flex" (FieldRef.catalog FieldTypes.uint64_t) 0 []).map
        AtomicField.get_byte_size = Except.ok 8
    ∧ (AtomicArrayField.mk "c" (FieldRef.custom "any") 1 [5]).map
        AtomicField.get_byte_size = Except.ok 0 := by
  refine ⟨?_, array_byte_size.2.1 "flex" FieldTypes.uint64_t [], ?_⟩
  · have h := array_byte_size.1 "matrix" FieldTypes.uint64_t 2 [10, 20] (by decide) (by decide)
    exact h.trans (by rfl)
  · exact array_byte_size.2.2 "c" "any" 1 [5] (Or.inr (by decide))

/-- The field AtomicArrayField.of_pointer yields for a nonzero dimension
with a matching number of lengths. -/
theorem of_pointer_size (pointer : AtomicField) (dimension : Nat) (lengths : List Nat)
    (hd : dimension ≠ 0) (hl : lengths.length = dimension) :
    AtomicArrayField.of_pointer pointer dimension lengths
      = Except.ok { name := pointer.name, type_name := pointer.type_name,
                    size := 8 * lengths.prod, bit_size := none } := by
  subst hl
  unfold AtomicArrayField.of_pointer AtomicArrayField.mk
  rw [if_neg (by simp)]
  simp [hd, List.take_length, foldl_mul_eq]

/-- C6: an array of pointers with nonzero dimension has byte size 8, the
pointer width, times the product of the lengths, regardless of the pointee
type, both directly from AtomicArrayField.of_pointer and through
add_array_of_pointers. -/
theorem array_of_pointers_byte_size :
    (∀ (pointer : AtomicField) (dimension : Nat) (lengths : List Nat),
        dimension ≠ 0 → lengths.length = dimension →
        (AtomicArrayField.of_pointer pointer dimension lengths).map
            AtomicField.get_byte_size
          = Except.ok (8 * lengths.prod))
    ∧ (∀ (pointer : AtomicField) (dimension : Nat) (lengths : List Nat),
        dimension ≠ 0 → lengths.length = dimension →
        (AtomicStructBuilder.empty.add_array_of_pointers pointer dimension lengths).map
            (fun r => r.1.fields.map (fun p => p.2.get_byte_size))
          = Except.ok [8 * lengths.prod]) := by
  constructor
  · intro pointer dimension lengths hd hl
    rw [of_pointer_size pointer dimension lengths hd hl]
    simp [Except.map, AtomicField.get_byte_size]
  · intro pointer dimension lengths hd hl
    simp only [AtomicStructBuilder.add_array_of_pointers]
    rw [of_pointer_size pointer dimension lengths hd hl]
    simp [Except.map, AtomicStructBuilder.empty, dictInsert, AtomicField.get_byte_size]

/-- Witness for C6: an array of 50 pointers to uint64_t has byte size 400,
directly and through the builder. -/
theorem array_of_pointers_byte_size_witness :
    (AtomicArrayField.of_pointer
        (AtomicFieldPointer.of_type "ids" (FieldRef.catalog FieldTypes.uint64_t)) 1 [50]).map
        AtomicField.get_byte_size = Except.ok 400
    ∧ (AtomicStructBuilder.empty.add_array_of_pointers
        (AtomicFieldPointer.of_type "ids" (FieldRef.catalog FieldTypes.uint64_t)) 1 [50]).map
        (fun r => r.1.fields.map (fun p => p.2.get_byte_size)) = Except.ok [400] := by
  constructor
  · have h := array_of_pointers_byte_size.1
      (AtomicFieldPointer.of_type "ids" (FieldRef.catalog FieldTypes.uint64_t)) 1 [50]
      (by decide) (by decide)
    exact h.trans (by rfl)
  · have h := array_of_pointers_byte_size.2
      (AtomicFieldPointer.of_type "ids" (FieldRef.catalog FieldTypes.uint64_t)) 1 [50]
      (by decide) (by decide)
    exact h.trans (by rfl)

/-- C7: array construction with a nonzero dimension and a number of lengths
different from it fails with the dimension mismatch error carrying both
counts; when the counts agree or the dimension is 0 construction succeeds
without this error. -/
theorem array_dimension_mismatch :
    (∀ (name : String) (_type : FieldRef) (dimension : Nat) (lengths : List Nat),
        dimension ≠ 0 → lengths.length ≠ dimension →
        AtomicArrayField.mk name _type dimension lengths
          = Except.error (AtomicError.dimensionMismatch lengths.length dimension))
    ∧ (∀ (name : String) (_type : FieldRef) (dimension : Nat) (lengths : List Nat),
        dimension = 0 ∨ lengths.length = dimension →
        ∃ f, AtomicArrayField.mk name _type dimension lengths = Except.ok f) := by
  constructor
  · intro name _type dimension lengths hd hl
    unfold AtomicArrayField.mk
    rw [if_pos ⟨hd, hl⟩]
  · intro name _type dimension lengths h
    unfold AtomicArrayField.mk
    rw [if_neg (by rcases h with h | h <;> simp [h])]
    exact ⟨_, rfl⟩

/-- Witness for C7: two declared dimensions with three lengths fail with
the error carrying 3 and 2; matching counts or dimension 0 succeed. -/
theorem array_dimension_mismatch_witness :
    AtomicArrayField.mk "a" (FieldRef.catalog FieldTypes.uint8_t) 2 [1, 2, 3]
      = Except.error (AtomicError.dimensionMismatch 3 2)
    ∧ (∃ f, AtomicArrayField.mk "a" (FieldRef.catalog FieldTypes.uint8_t) 2 [4, 5]
        = Except.ok f)
    ∧ (∃ f, AtomicArrayField.mk "a" (FieldRef.catalog FieldTypes.uint8_t) 0 [4, 5, 6]
        = Except.ok f) := by
  refine ⟨?_,
    array_dimension_mismatch.2 "a" (FieldRef.catalog FieldTypes.uint8_t) 2 [4, 5]
      (Or.inr (by decide)),
    array_dimension_mismatch.2 "a" (FieldRef.catalog FieldTypes.uint8_t) 0 [4, 5, 6]
      (Or.inl rfl)⟩
  exact array_dimension_mismatch.1 "a" (FieldRef.catalog FieldTypes.uint8_t) 2 [1, 2, 3]
    (by decide) (by decide)

/-- C9 as stated is false: remove_field returns None rather than the
builder itself, so it cannot be fluently chained. -/
theorem remove_field_counterexample :
    (AtomicStructBuilder.empty.remove_field "x").2
      ≠ some (AtomicStructBuilder.empty.remove_field "x").1 := by
  decide

/-- C9 amended: every add operation of the builder returns the builder
itself, enabling fluent chaining, but remove_field returns None; removing a
field whose name is not present leaves the builder unchanged and does not
fail. -/
theorem builder_chaining :
    (∀ (b : AtomicStructBuilder) (name : String) (_type : FieldTypes) (width : Nat),
        (b.add_field name _type width).2 = some (b.add_field name _type width).1)
    ∧ (∀ (b : AtomicStructBuilder) (name : String) (_type : FieldTypes)
          (dimension : Nat) (lengths : List Nat) (r : BuilderResult),
        b.add_array name _type dimension lengths = Except.ok r → r.2 = some r.1)
    ∧ (∀ (b : AtomicStructBuilder) (name type_name : String)
          (dimension : Nat) (lengths : List Nat) (r : BuilderResult),
        b.add_array_custom name type_name dimension lengths = Except.ok r → r.2 = some r.1)
    ∧ (∀ (b : AtomicStructBuilder) (name : String) (_type : FieldTypes),
        (b.add_pointer_field name _type).2 = some (b.add_pointer_field name _type).1)
    ∧ (∀ (b : AtomicStructBuilder) (name type_name : String),
        (b.add_pointer_custom name type_name).2 = some (b.add_pointer_custom name type_name).1)
    ∧ (∀ (b : AtomicStructBuilder) (name : String) (_type : FieldTypes)
          (dimension : Nat) (lengths : List Nat) (r : BuilderResult),
        b.add_pointer_of_array name _type dimension lengths = Except.ok r → r.2 = some r.1)
    ∧ (∀ (b : AtomicStructBuilder) (pointer : AtomicField)
          (dimension : Nat) (lengths : List Nat) (r : BuilderResult),
        b.add_array_of_pointers pointer dimension lengths = Except.ok r → r.2 = some r.1)
    ∧ (∀ (b : AtomicStructBuilder) (struct : AtomicField) (show_struct_name : Bool),
        (b.add_struct struct show_struct_name).2 = some (b.add_struct struct show_struct_name).1)
    ∧ (∀ (b : AtomicStructBuilder) (name : String) (struct : AtomicField),
        (b.add_struct_field name struct).2 = some (b.add_struct_field name struct).1)
    ∧ (∀ (b : AtomicStructBuilder) (name : String) (struct : AtomicField)
          (dimension : Nat) (lengths : List Nat) (r : BuilderResult),
        b.add_struct_array name struct dimension lengths = Except.ok r → r.2 = some r.1)
    ∧ (∀ (b : AtomicStructBuilder) (name : String) (struct : AtomicField),
        (b.add_pointer_struct_field name struct).2
          = some (b.add_pointer_struct_field name struct).1)
    ∧ (∀ (b : AtomicStructBuilder) (name custom_type_name : String),
        (b.add_custom name custom_type_name).2 = some (b.add_custom name custom_type_name).1)
    ∧ (∀ (b : AtomicStructBuilder) (name : String), (b.remove_field name).2 = none)
    ∧ (∀ (b : AtomicStructBuilder) (name : String),
        (∀ p ∈ b.fields, p.1 ≠ name) → (b.remove_field name).1 = b) := by
  refine ⟨fun b name t w => rfl, ?_, ?_, fun b n t => rfl, fun b n t => rfl, ?_, ?_,
    fun b s sn => rfl, fun b n s => rfl, ?_, fun b n s => rfl, fun b n c => rfl,
    fun b n => rfl, ?_⟩
  · intro b name t dimension lengths r h
    unfold AtomicStructBuilder.add_array at h
    split at h
    · exact Except.noConfusion h
    · injection h with h2
      subst h2
      rfl
  · intro b name tn dimension lengths r h
    unfold AtomicStructBuilder.add_array_custom at h
    split at h
    · exact Except.noConfusion h
    · injection h with h2
      subst h2
      rfl
  · intro b name t dimension lengths r h
    unfold AtomicStructBuilder.add_pointer_of_array at h
    split at h
    · exact Except.noConfusion h
    · injection h with h2
      subst h2
      rfl
  · intro b pointer dimension lengths r h
    unfold AtomicStructBuilder.add_array_of_pointers at h
    split at h
    · exact Except.noConfusion h
    · injection h with h2
      subst h2
      rfl
  · intro b name struct dimension lengths r h
    unfold AtomicStructBuilder.add_struct_array at h
    split at h
    · exact Except.noConfusion h
    · injection h with h2
      subst h2
      rfl
  · intro b name h
    cases b with
    | mk fs =>
        simp only [AtomicStructBuilder.remove_field, AtomicStructBuilder.mk.injEq]
        apply List.filter_eq_self.2
        intro a ha
        simpa using h a ha

/-- Witness for C9 amended: a concrete successful add_array returns the
mutated builder, and removing an absent name is a no-op. -/
theorem builder_chaining_witness :
    (∃ r, AtomicStructBuilder.empty.add_array "a" FieldTypes.uint8_t 1 [2]
        = Except.ok r ∧ r.2 = some r.1)
    ∧ (AtomicStructBuilder.remove_field
        ⟨[("y", AtomicDataField.mk "y" (FieldRef.catalog FieldTypes.uint8_t) 0)]⟩ "x").1
      = ⟨[("y", AtomicDataField.mk "y" (FieldRef.catalog FieldTypes.uint8_t) 0)]⟩ := by
  constructor
  · refine ⟨_, rfl, ?_⟩
    exact builder_chaining.2.1 AtomicStructBuilder.empty "a" FieldTypes.uint8_t 1 [2] _ rfl
  · exact builder_chaining.2.2.2.2.2.2.2.2.2.2.2.2.2
      ⟨[("y", AtomicDataField.mk "y" (FieldRef.catalog FieldTypes.uint8_t) 0)]⟩ "x"
      (by decide)

/-- C10: a struct embedded by value through add_struct contributes both its
byte size and its total bit size to the parent: with the embedded struct as
only field, the parent bit size equals the child bit size and the parent
byte size equals the child byte size plus the ceiling of the child bit size
divided by 8; embedding a 1 byte child made of four bit fields totalling 8
bits therefore yields a parent of byte size 2. -/
theorem embedded_struct_sizes :
    (∀ (sname pname : String) (sfields : List AtomicField) (show_struct_name : Bool),
        ((AtomicStructBuilder.empty.add_struct (AtomicStructField.mk sname sfields)
            show_struct_name).1.build pname).get_bit_size
          = (AtomicStructField.mk sname sfields).get_bit_size
        ∧ ((AtomicStructBuilder.empty.add_struct (AtomicStructField.mk sname sfields)
            show_struct_name).1.build pname).get_byte_size
          = (AtomicStructField.mk sname sfields).get_byte_size
            + ⌈((((AtomicStructField.mk sname sfields).get_bit_size : ℕ) : ℚ)) / 8⌉₊)
    ∧ ((AtomicStructBuilder.empty.add_struct
          (AtomicStructField.mk "flags"
            (flagSpecs.map (fun s => AtomicDataField.mk s.1 s.2.1 s.2.2))) true).1.build
            "example").get_byte_size = 2
    ∧ (AtomicStructField.mk "flags"
          (flagSpecs.map (fun s => AtomicDataField.mk s.1 s.2.1 s.2.2))).get_byte_size = 1 := by
  refine ⟨?_, by decide, by decide⟩
  intro sname pname sfields show_struct_name
  have hcopy : ∀ (c : AtomicField),
      (AtomicStructBuilder.empty.add_struct c show_struct_name).1.build pname
        = AtomicStructField.mk pname
            [if show_struct_name then c else { c with name := "" }] := by
    intro c
    cases show_struct_name <;>
      simp [AtomicStructBuilder.add_struct, AtomicStructBuilder.empty, dictInsert,
        AtomicStructBuilder.build]
  rw [hcopy, ceil_div_eight_eq]
  have hsizes :
      (if show_struct_name then AtomicStructField.mk sname sfields
        else { AtomicStructField.mk sname sfields with name := "" }).get_bit_size
        = (AtomicStructField.mk sname sfields).get_bit_size
      ∧ (if show_struct_name then AtomicStructField.mk sname sfields
        else { AtomicStructField.mk sname sfields with name := "" }).get_byte_size
        = (AtomicStructField.mk sname sfields).get_byte_size := by
    cases show_struct_name <;>
      simp [AtomicField.get_bit_size, AtomicField.get_byte_size]
  constructor
  · rw [(struct_mk_size pname _).2]
    simp [hsizes.1]
  · rw [(struct_mk_size pname _).1]
    simp [hsizes.1, hsizes.2]

/-- C4: setting a restricted attribute to a value that some validator of
its attached restriction set rejects raises the violation and leaves the
container state, in particular the stored value of that field, exactly as
it was before the call. -/
theorem setattr_validate_then_commit :
    ∀ (V : Type) (e : Editable V) (name : String) (value : V) (r : ERestriction V),
      lookupName e.keys name = some r →
      r.validateOk value = false →
      Editable.setattr e name value = (e, some ⟨name, value⟩)
      ∧ lookupName (Editable.setattr e name value).1.values name
          = lookupName e.values name := by
  intro V e name value r hr hfail
  have h : Editable.setattr e name value = (e, some ⟨name, value⟩) := by
    unfold Editable.setattr
    rw [hr]
    simp [hfail]
  exact ⟨h, by rw [h]⟩

/-- Witness for C4: an unsigned 8 bit field age initialized to 0 rejects
the value 300 and still stores 0 afterwards. -/
theorem setattr_validate_then_commit_witness :
    (uint8Restriction "age").validateOk 300 = false
    ∧ Editable.setattr ageEditable "age" 300 = (ageEditable, some ⟨"age", 300⟩)
    ∧ lookupName (Editable.setattr ageEditable "age" 300).1.values "age" = some 0 := by
  have h := setattr_validate_then_commit Int ageEditable "age" 300 (uint8Restriction "age")
    (by rfl) (by rfl)
  exact ⟨by rfl, h.1, h.2.trans (by rfl)⟩

theorem validateFrom_none {V : Type} (rn : String) (vs : List (String × (V → Bool)))
    (value : V) (h : ∀ p ∈ vs, p.2 value = true) : validateFrom rn vs value = none := by
  induction vs with
  | nil => rfl
  | cons p rest ih =>
      obtain ⟨pn, pv⟩ := p
      have hp : pv value = true := h (pn, pv) (by simp)
      simp only [validateFrom, hp, if_true]
      exact ih (fun q hq => h q (by simp [hq]))

theorem validateFrom_first {V : Type} (rn : String) (vs : List (String × (V → Bool)))
    (value : V) (i : Nat) (hi : i < vs.length)
    (hprev : ∀ (j : Nat) (hj : j < i), (vs.get ⟨j, Nat.lt_trans hj hi⟩).2 value = true)
    (hfail : (vs.get ⟨i, hi⟩).2 value = false) :
    validateFrom rn vs value = some ⟨rn, value, (vs.get ⟨i, hi⟩).1⟩ := by
  induction vs generalizing i with
  | nil => exact absurd hi (by simp)
  | cons p rest ih =>
      obtain ⟨pn, pv⟩ := p
      cases i with
      | zero =>
          simp only [List.get] at hfail ⊢
          simp [validateFrom, hfail]
      | succ n =>
          have hp : pv value = true := by
            have h0 := hprev 0 (Nat.succ_pos n)
            simpa using h0
          have hrest := ih n (Nat.lt_of_succ_lt_succ hi)
            (fun j hj => by
              have hj2 := hprev (j + 1) (Nat.succ_lt_succ hj)
              simpa using hj2)
            (by simpa using hfail)
          simp only [validateFrom, hp, if_true, List.get]
          simpa using hrest

/-- C8: validate evaluates the named predicates in registration order and,
when some predicate rejects the value, raises a violation identifying the
first failing one, reporting the restriction set name, the offending value
and that predicate name; when every predicate accepts, it returns without
error. -/
theorem validate_first_failing :
    ∀ (V : Type) (r : Restriction V) (value : V),
      ((∀ p ∈ r.validators, p.2 value = true) → r.validate value = none)
      ∧ (∀ (i : Nat) (hi : i < r.validators.length),
          (∀ (j : Nat) (hj : j < i), (r.validators.get ⟨j, Nat.lt_trans hj hi⟩).2 value = true) →
          (r.validators.get ⟨i, hi⟩).2 value = false →
          r.validate value
            = some ⟨r.restriction_name, value, (r.validators.get ⟨i, hi⟩).1⟩) := by
  intro V r value
  constructor
  · intro h
    unfold Restriction.validate
    exact validateFrom_none r.restriction_name r.validators value h
  · intro i hi hprev hfail
    unfold Restriction.validate
    exact validateFrom_first r.restriction_name r.validators value i hi hprev hfail

/-- The example restriction set of the restrict docstring: an evenness
predicate registered first and a minimum predicate registered second. -/
def testRestriction : Restriction Int :=
  ⟨"test", [("value_is_even", fun value => decide (value % 2 = 0)),
            ("minimum 7", fun value => decide (7 ≤ value))]⟩

/-- Witness for C8: the value 8 passes both predicates, while the value 4
passes the first and fails the second, reported by name. -/
theorem validate_first_failing_witness :
    testRestriction.validate 8 = none
    ∧ testRestriction.validate 4 = some ⟨"test", 4, "minimum 7"⟩ := by
  constructor
  · exact (validate_first_failing Int testRestriction 8).1 (by decide)
  · have h := (validate_first_failing Int testRestriction 4).2 1 (by decide)
      (by intro j hj
          have hj0 : j = 0 := by omega
          subst hj0
          rfl)
      (by decide)
    exact h.trans (by rfl)
